import Mathlib

/-!
Verification of the pocket-mcp proxy server (server/src) against its
natural-language specification.

The visible TypeScript source is `auth.ts` (credential resolution),
`config.ts` (config loading) and the two bootstrap entry points (stdio and
SSE) in `index.ts`.  The capability-aggregation core (`mcp-proxy.ts`,
`createServer`) is not part of the visible source; the definitions for it
below are modelled from the specification and are marked as such in their
doc comments.  Strings are embedded as `List Char` where character-level
reasoning is needed and as Lean `String` elsewhere.
-/

namespace PocketMCP

/-! ## Capability aggregation (Capability Aggregator, spec section 4.3) -/

/-- Character sequences standing for backend names and capability ids. -/
abbrev Str := List Char

/-- Kind of an advertised capability: a tool, a resource or a prompt. -/
inductive CapKind
  | tool
  | resource
  | prompt
deriving DecidableEq, Repr

/-- Modelled from the spec: a CapabilityEntry of the AggregateCatalog
(`mcp-proxy.ts` is absent from the visible source).  The aggregatedId is
derived from the owner and the original id, see `aggregatedId`. -/
structure CapabilityEntry where
  ownerBackend : Str
  originalId : Str
  kind : CapKind
deriving DecidableEq, Repr

/-- The namespacing separator of the spec's example composition
`<backend>::<original>`. -/
def sepChars : Str := [':', ':']

/-- Modelled from the spec: the aggregatedId is the deterministic
composition of the backend name and the original id. -/
def aggregatedId (e : CapabilityEntry) : Str :=
  e.ownerBackend ++ sepChars ++ e.originalId

/-- Modelled from the spec: the AggregateCatalog in upstream presentation
order (backend insertion order, then original order within a backend). -/
abbrev AggregateCatalog := List CapabilityEntry

/-- Modelled from the spec: removal of every CapabilityEntry owned by one
backend, keeping all other entries in their relative order. -/
def removeBackend (b : Str) (cat : AggregateCatalog) : AggregateCatalog :=
  cat.filter (fun e => e.ownerBackend ≠ b)

/-- Modelled from the spec: pruning a disconnected backend removes its
entries from the catalog. -/
def pruneBackend (b : Str) (cat : AggregateCatalog) : AggregateCatalog :=
  removeBackend b cat

/-- One step of the collision policy: a later entry with the same original
id overwrites the earlier one. -/
def insertCap (acc : List (Str × CapKind)) (c : Str × CapKind) :
    List (Str × CapKind) :=
  acc.filter (fun x => x.1 ≠ c.1) ++ [c]

/-- Modelled from the spec: within a single backend's list, a duplicate
original id makes the later entry overwrite the earlier one. -/
def dedupKeepLast (caps : List (Str × CapKind)) : List (Str × CapKind) :=
  caps.foldl insertCap []

/-- Modelled from the spec: the fresh CapabilityEntries built from one
backend's advertised list. -/
def buildEntries (b : Str) (caps : List (Str × CapKind)) :
    List CapabilityEntry :=
  (dedupKeepLast caps).map (fun c => ⟨b, c.1, c.2⟩)

/-- An update of the AggregateCatalog: a (re)build of one backend's list,
or the prune of one backend. -/
inductive CatalogOp
  | merge (b : Str) (caps : List (Str × CapKind))
  | prune (b : Str)

/-- The backend a catalog update concerns. -/
def CatalogOp.backend : CatalogOp → Str
  | .merge b _ => b
  | .prune b => b

/-- Modelled from the spec: the merge policy removes all entries
previously owned by the backend, then inserts the new set; a prune only
removes. -/
def applyOp (cat : AggregateCatalog) : CatalogOp → AggregateCatalog
  | .merge b caps => removeBackend b cat ++ buildEntries b caps
  | .prune b => removeBackend b cat

/-- The catalog after a sequence of merges and prunes. -/
def applyOps (ops : List CatalogOp) (cat : AggregateCatalog) :
    AggregateCatalog :=
  ops.foldl applyOp cat

/-- A name below which the separator cannot be forged: it holds no colon. -/
def colonFree (s : Str) : Prop := ':' ∉ s

instance (s : Str) : Decidable (colonFree s) := by
  unfold colonFree; infer_instance

/-- Well-formedness of a catalog state: entries are pairwise distinct on
the (owner, original id) key, and every owner name is colon-free. -/
def GoodCatalog (cat : AggregateCatalog) : Prop :=
  cat.Pairwise
      (fun e1 e2 =>
        e1.ownerBackend ≠ e2.ownerBackend ∨ e1.originalId ≠ e2.originalId)
    ∧ ∀ e ∈ cat, colonFree e.ownerBackend

theorem mem_removeBackend {b : Str} {cat : AggregateCatalog}
    {e : CapabilityEntry} :
    e ∈ removeBackend b cat ↔ e ∈ cat ∧ e.ownerBackend ≠ b := by
  simp [removeBackend]

theorem removeBackend_sublist (b : Str) (cat : AggregateCatalog) :
    List.Sublist (removeBackend b cat) cat :=
  List.filter_sublist cat

/-- The composed id determines the backend name and the original id, as
long as neither backend name holds a colon. -/
theorem sep_composition_injective {b1 : Str} :
    ∀ {b2 o1 o2 : Str}, ':' ∉ b1 → ':' ∉ b2 →
      b1 ++ sepChars ++ o1 = b2 ++ sepChars ++ o2 → b1 = b2 ∧ o1 = o2 := by
  induction b1 with
  | nil =>
    intro b2 o1 o2 _ h2 h
    cases b2 with
    | nil =>
      refine ⟨rfl, ?_⟩
      simpa [sepChars] using h
    | cons c bs =>
      exfalso
      simp only [sepChars, List.nil_append, List.cons_append,
        List.cons.injEq] at h
      exact h2 (by simp [← h.1])
  | cons c1 bs1 ih =>
    intro b2 o1 o2 h1 h2 h
    cases b2 with
    | nil =>
      exfalso
      simp only [sepChars, List.nil_append, List.cons_append,
        List.cons.injEq] at h
      exact h1 (by simp [h.1])
    | cons c2 bs2 =>
      simp only [List.cons_append, List.cons.injEq] at h
      have hb1 : ':' ∉ bs1 := fun hm => h1 (List.mem_cons_of_mem _ hm)
      have hb2 : ':' ∉ bs2 := fun hm => h2 (List.mem_cons_of_mem _ hm)
      rcases ih hb1 hb2 h.2 with ⟨hb, ho⟩
      exact ⟨by rw [h.1, hb], ho⟩

/-- Two entries with colon-free owners and distinct (owner, original id)
keys have distinct aggregatedIds. -/
theorem aggregatedId_ne {e1 e2 : CapabilityEntry}
    (h1 : colonFree e1.ownerBackend) (h2 : colonFree e2.ownerBackend)
    (hne : e1.ownerBackend ≠ e2.ownerBackend ∨ e1.originalId ≠ e2.originalId) :
    aggregatedId e1 ≠ aggregatedId e2 := by
  intro h
  rcases sep_composition_injective h1 h2 h with ⟨hb, ho⟩
  rcases hne with hx | hx
  · exact hx hb
  · exact hx ho

theorem pairwise_dedupKeepLast (caps : List (Str × CapKind)) :
    (dedupKeepLast caps).Pairwise (fun x y => x.1 ≠ y.1) := by
  suffices h : ∀ acc : List (Str × CapKind),
      acc.Pairwise (fun x y => x.1 ≠ y.1) →
      (caps.foldl insertCap acc).Pairwise (fun x y => x.1 ≠ y.1) from
    h [] List.Pairwise.nil
  induction caps with
  | nil => intro acc hacc; exact hacc
  | cons c rest ih =>
    intro acc hacc
    refine ih (insertCap acc c) ?_
    unfold insertCap
    refine List.pairwise_append.mpr ⟨?_, List.pairwise_singleton _ _, ?_⟩
    · exact List.Pairwise.sublist (List.filter_sublist acc) hacc
    · intro x hx y hy
      rcases List.mem_filter.mp hx with ⟨_, hxc⟩
      rcases List.mem_singleton.mp hy with rfl
      simpa using hxc

theorem owner_of_mem_buildEntries {b : Str} {caps : List (Str × CapKind)}
    {e : CapabilityEntry} (h : e ∈ buildEntries b caps) :
    e.ownerBackend = b := by
  rcases List.mem_map.mp h with ⟨c, _, rfl⟩
  rfl

theorem pairwise_buildEntries (b : Str) (caps : List (Str × CapKind)) :
    (buildEntries b caps).Pairwise
      (fun e1 e2 =>
        e1.ownerBackend ≠ e2.ownerBackend ∨ e1.originalId ≠ e2.originalId) := by
  refine List.Pairwise.map _ ?_ (pairwise_dedupKeepLast caps)
  intro x y hxy
  exact Or.inr hxy

/-- The empty catalog is well formed. -/
theorem goodCatalog_nil : GoodCatalog [] :=
  ⟨List.Pairwise.nil, by intro e he; cases he⟩

/-- One catalog update with a colon-free backend name preserves
well-formedness. -/
theorem goodCatalog_applyOp {cat : AggregateCatalog} {op : CatalogOp}
    (h : GoodCatalog cat) (hb : colonFree op.backend) :
    GoodCatalog (applyOp cat op) := by
  cases op with
  | prune b =>
    refine ⟨List.Pairwise.sublist (removeBackend_sublist b cat) h.1, ?_⟩
    intro e he
    exact h.2 e (mem_removeBackend.mp he).1
  | merge b caps =>
    constructor
    · refine List.pairwise_append.mpr
        ⟨List.Pairwise.sublist (removeBackend_sublist b cat) h.1,
         pairwise_buildEntries b caps, ?_⟩
      intro x hx y hy
      rcases mem_removeBackend.mp hx with ⟨_, hxb⟩
      exact Or.inl (by rw [owner_of_mem_buildEntries hy]; exact hxb)
    · intro e he
      rcases List.mem_append.mp he with he | he
      · exact h.2 e (mem_removeBackend.mp he).1
      · rw [owner_of_mem_buildEntries he]; exact hb

/-- A sequence of catalog updates with colon-free backend names preserves
well-formedness. -/
theorem goodCatalog_applyOps {ops : List CatalogOp} :
    ∀ {cat : AggregateCatalog}, GoodCatalog cat →
      (∀ op ∈ ops, colonFree op.backend) → GoodCatalog (applyOps ops cat) := by
  induction ops with
  | nil => intro cat h _; exact h
  | cons op rest ih =>
    intro cat h hops
    exact ih (goodCatalog_applyOp h (hops op (List.mem_cons_self op rest)))
      (fun o ho => hops o (List.mem_cons_of_mem _ ho))

/-! ## Request routing (Request Router, spec section 4.4) -/

/-- Modelled from the spec: an error produced by a backend, tagged with
the backend it came from before the Router strips the tag. -/
structure BackendErr where
  origin : Str
  message : Str
deriving DecidableEq, Repr

/-- Modelled from the spec: the upstream-visible error shape; a forwarded
backend error carries only the message, never the backend name. -/
inductive RouterError
  | unknownCapability
  | forwarded (message : Str)
deriving DecidableEq, Repr

/-- Catalog lookup by aggregatedId. -/
def findEntry (cat : AggregateCatalog) (aggId : Str) :
    Option CapabilityEntry :=
  cat.find? (fun e => aggregatedId e = aggId)

/-- Modelled from the spec: `handleInvoke` splits the aggregatedId via the
catalog, fails with `UnknownCapability` on a miss, otherwise forwards the
payload to the owning backend's original id and translates the outcome:
a result is returned unchanged, a backend error is returned with the
backend name stripped. -/
def handleInvoke {α β : Type} (cat : AggregateCatalog)
    (invoke : Str → Str → α → Except BackendErr β)
    (aggId : Str) (args : α) : Except RouterError β :=
  match findEntry cat aggId with
  | none => .error .unknownCapability
  | some e =>
    match invoke e.ownerBackend e.originalId args with
    | .ok r => .ok r
    | .error be => .error (.forwarded be.message)

/-- In a catalog whose aggregatedIds are pairwise distinct, the lookup at
a member's aggregatedId returns exactly that member. -/
theorem findEntry_of_mem {cat : AggregateCatalog} {e : CapabilityEntry}
    (hmem : e ∈ cat)
    (hdist : cat.Pairwise (fun e1 e2 => aggregatedId e1 ≠ aggregatedId e2)) :
    findEntry cat (aggregatedId e) = some e := by
  induction cat with
  | nil => cases hmem
  | cons a l ih =>
    rcases List.pairwise_cons.mp hdist with ⟨ha, hl⟩
    rcases List.mem_cons.mp hmem with rfl | hmem'
    · unfold findEntry
      exact List.find?_cons_of_pos _ (by simp)
    · have hne : aggregatedId a ≠ aggregatedId e := ha e hmem'
      unfold findEntry
      rw [List.find?_cons_of_neg _ (by simpa using hne)]
      exact ih hmem' hl

/-! ## Credential resolution (`auth.ts`) and config loading (`config.ts`) -/

/-- `TransportConfigStdio` of `config.ts`: optional literal type tag,
command, optional argument list, optional environment list. -/
structure TransportConfigStdio where
  type : Option String
  command : String
  args : Option (List String)
  env : Option (List String)
deriving DecidableEq, Repr

/-- `TransportConfigSSE` of `config.ts`: the backend URL. -/
structure TransportConfigSSE where
  url : String
deriving DecidableEq, Repr

/-- `TransportConfig` of `config.ts`: the union of the two transports. -/
inductive TransportConfig
  | stdio (c : TransportConfigStdio)
  | sse (c : TransportConfigSSE)
deriving DecidableEq, Repr

/-- `ServerConfig` of `config.ts`: a named backend descriptor. -/
structure ServerConfig where
  name : String
  transport : TransportConfig
deriving DecidableEq, Repr

/-- `Config` of `config.ts`. -/
structure Config where
  servers : List ServerConfig
deriving DecidableEq, Repr

/-- `AuthResponse` of `auth.ts`: the JSON body of the resolver reply. -/
structure AuthResponse where
  success : Bool
  servers : List ServerConfig
  message : Option String
deriving DecidableEq, Repr

/-- Outcome of the single HTTP GET that `authenticateAndGetServers`
issues: a resolved response body, an axios transport error carrying the
optional HTTP status (`error.response?.status`), or a non-axios
exception. -/
inductive HttpOutcome
  | response (r : AuthResponse)
  | axiosError (status : Option Nat) (message : String)
  | otherError (message : String)
deriving DecidableEq, Repr

/-- The errors `authenticateAndGetServers` can throw: the three messages
it builds itself, plus a re-raised error (a non-axios exception, or the
`Error` thrown on a response with `success: false`). -/
inductive AuthFailure
  | invalidApiKey
  | noPermission
  | authError (message : String)
  | raised (message : String)
deriving DecidableEq, Repr

/-- JavaScript `a || b` on an optional string: the empty string and a
missing value are both falsy. -/
def jsOrElse (a : Option String) (b : String) : String :=
  match a with
  | none => b
  | some s => if s.isEmpty then b else s

/-- `authenticateAndGetServers` of `auth.ts`, as a function of the HTTP
outcome.  A `success: false` body throws a plain `Error` inside the
`try`, which the `catch` re-raises unchanged because it is not an axios
error; an axios error maps 401 to `Invalid API key`, 403 to
`No permission` and anything else to `Auth error: ...`; a non-axios
exception is re-thrown as-is. -/
def authenticateAndGetServers (o : HttpOutcome) :
    Except AuthFailure (List ServerConfig) :=
  match o with
  | .response r =>
    if r.success then .ok r.servers
    else .error (.raised (jsOrElse r.message ("Auth failed")))
  | .axiosError status _message =>
    if status = some 401 then .error .invalidApiKey
    else if status = some 403 then .error .noPermission
    else .error (.authError _message)
  | .otherError m => .error (.raised m)

/-- The effect environment of `loadConfig`: the HTTP outcome the resolver
call would see, and the outcome of reading and JSON-parsing the config
file (any read or parse failure is an error value). -/
structure ConfigEnv where
  http : HttpOutcome
  file : Except String Config
deriving Repr

/-- JavaScript truthiness of the optional `apiKey` string: `undefined`
and the empty string are falsy. -/
def jsTruthy : Option String → Bool
  | none => false
  | some s => !s.isEmpty

/-- `loadConfig` of `config.ts`.  With a truthy api key it resolves the
servers remotely and re-throws any failure; otherwise it reads the config
file and maps any failure to an empty server list.  The second component
records whether the config file was read. -/
def loadConfig (apiKey : Option String) (env : ConfigEnv) :
    Except AuthFailure Config × Bool :=
  if jsTruthy apiKey then
    match authenticateAndGetServers env.http with
    | .ok servers => (.ok ⟨servers⟩, false)
    | .error e => (.error e, false)
  else
    match env.file with
    | .ok cfg => (.ok cfg, true)
    | .error _ => (.ok ⟨[]⟩, true)

/-! ## Process bootstrap (`index.ts`, stdio and SSE entry points) -/

/-- Observable outcome of the stdio `main`: exit code if the process
exited, the Backend Connections that were opened, and the error surfaced
to the session initiator. -/
structure MainOutcome where
  exitCode : Option Nat
  openedBackends : List ServerConfig
  surfacedError : Option AuthFailure
deriving DecidableEq, Repr

/-- Modelled from the spec: `createServer` of the absent `mcp-proxy.ts`
resolves the config first and only then opens one Backend Connection per
resolved server; a resolution failure propagates before any connection is
opened. -/
def createServer (apiKey : Option String) (env : ConfigEnv) :
    Except AuthFailure (List ServerConfig) :=
  match (loadConfig apiKey env).1 with
  | .ok cfg => .ok cfg.servers
  | .error e => .error e

/-- The stdio `main` of `index.ts`: on a `createServer` failure it logs
the error and exits with code 1; on success the opened backends serve the
session. -/
def mainStdio (apiKey : Option String) (env : ConfigEnv) : MainOutcome :=
  match createServer apiKey env with
  | .ok servers =>
    { exitCode := none, openedBackends := servers, surfacedError := none }
  | .error e =>
    { exitCode := some 1, openedBackends := [], surfacedError := some e }

/-- Actions a shutdown or failure path of `index.ts` performs, in
order. -/
inductive ProcAction
  | runCleanup
  | closeServer
  | exitProc (code : Nat)
deriving DecidableEq, Repr

/-- The exit paths visible in `index.ts` (stdio entry and SSE entry). -/
inductive ExitPath
  | stdioSigint
  | sseSigintAfterInit
  | sseSigintBeforeInit
  | stdioStartupFailure
  | sseStartupFailure
  | sseServerClosed
deriving DecidableEq, Repr

/-- The ordered actions of each exit path of `index.ts`: the stdio SIGINT
handler awaits `cleanup()` then `server.close()` then exits 0; the SSE
SIGINT handler awaits `cleanupFunction` only when it was assigned, then
exits 0; both startup `catch` blocks exit 1; the SSE `onclose` hook (when
`KEEP_SERVER_OPEN` is unset) awaits cleanup, closes and exits 0. -/
def pathActions : ExitPath → List ProcAction
  | .stdioSigint => [.runCleanup, .closeServer, .exitProc 0]
  | .sseSigintAfterInit => [.runCleanup, .exitProc 0]
  | .sseSigintBeforeInit => [.exitProc 0]
  | .stdioStartupFailure => [.exitProc 1]
  | .sseStartupFailure => [.exitProc 1]
  | .sseServerClosed => [.runCleanup, .closeServer, .exitProc 0]

/-- Whether a cleanup action occurs strictly before any exit action, with
an exit of code 0 after it. -/
def cleanupThenExitZero : List ProcAction → Bool
  | [] => false
  | .runCleanup :: rest => decide (ProcAction.exitProc 0 ∈ rest)
  | .exitProc _ :: _ => false
  | .closeServer :: rest => cleanupThenExitZero rest

/-- The exit codes a path can exit with. -/
def exitCodes (l : List ProcAction) : List Nat :=
  l.filterMap (fun a =>
    match a with
    | .exitProc n => some n
    | _ => none)

/-! ## SSE bootstrap transport state (`index.ts`, SSE entry point) -/

/-- Events hitting the SSE bootstrap: a new GET `/sse` connection
(identified by a client id) or a POST `/message`. -/
inductive SseEvent
  | sseConnect (clientId : Nat)
  | postMessage
deriving DecidableEq, Repr

/-- The module state of the SSE bootstrap: the single global `transport`
variable, `none` while still `undefined`. -/
structure SseState where
  transport : Option Nat
deriving DecidableEq, Repr

/-- One step of the SSE bootstrap: a GET `/sse` reassigns the global
transport variable to the new client's transport; a POST `/message` only
reads it. -/
def sseStep (s : SseState) : SseEvent → SseState
  | .sseConnect cid => ⟨some cid⟩
  | .postMessage => s

/-- The client a POST `/message` is delivered to in a given state:
`none` models `transport.handlePostMessage` on an `undefined`
transport. -/
def postTarget (s : SseState) : Option Nat :=
  s.transport

/-- The SSE bootstrap state after a sequence of events, starting from the
uninitialized module state. -/
def runSse (evs : List SseEvent) : SseState :=
  evs.foldl sseStep ⟨none⟩

/-- The client id of the most recent GET `/sse` connection in a sequence
of events, if any. -/
def lastConnect (evs : List SseEvent) : Option Nat :=
  evs.foldl
    (fun acc e =>
      match e with
      | .sseConnect c => some c
      | .postMessage => acc)
    none

theorem runSse_foldl (evs : List SseEvent) :
    ∀ s : SseState,
      (evs.foldl sseStep s).transport =
        evs.foldl
          (fun acc e =>
            match e with
            | .sseConnect c => some c
            | .postMessage => acc)
          s.transport := by
  induction evs with
  | nil => intro s; rfl
  | cons e rest ih =>
    intro s
    cases e with
    | sseConnect c =>
      simp only [List.foldl_cons, sseStep]
      exact ih ⟨some c⟩
    | postMessage =>
      simp only [List.foldl_cons, sseStep]
      exact ih s

/-! ## Claim theorems -/

/-- Claim C1 (amended): for backend descriptors with pairwise-distinct
names none of which holds a colon (so the `<backend>::<original>`
composition cannot collide across backends), after any sequence of merges
and prunes the AggregateCatalog has no two entries with equal
aggregatedId, and across any two catalog states reachable within one
session an aggregatedId always belongs to the same backend. -/
theorem c1_catalog_aggregatedIds_unique (ops ops' : List CatalogOp)
    (h : ∀ op ∈ ops, colonFree op.backend)
    (h' : ∀ op ∈ ops', colonFree op.backend) :
    (applyOps ops []).Pairwise
        (fun e1 e2 => aggregatedId e1 ≠ aggregatedId e2) ∧
      ∀ e1 ∈ applyOps ops [], ∀ e2 ∈ applyOps ops' [],
        aggregatedId e1 = aggregatedId e2 →
          e1.ownerBackend = e2.ownerBackend := by
  have g := goodCatalog_applyOps goodCatalog_nil h
  have g' := goodCatalog_applyOps goodCatalog_nil h'
  constructor
  · exact g.1.imp_of_mem
      (fun ha hb hr => aggregatedId_ne (g.2 _ ha) (g.2 _ hb) hr)
  · intro e1 h1 e2 h2 heq
    exact (sep_composition_injective (g.2 _ h1) (g'.2 _ h2) heq).1

/-- Witness for C1: two backends `a` and `b` each advertising a tool `t`,
then pruning `a`, yields a catalog with pairwise-distinct
aggregatedIds. -/
theorem c1_catalog_aggregatedIds_unique_witness :
    (applyOps
        [CatalogOp.merge ['a'] [(['t'], CapKind.tool)],
         CatalogOp.merge ['b'] [(['t'], CapKind.tool)],
         CatalogOp.prune ['a']] []).Pairwise
      (fun e1 e2 => aggregatedId e1 ≠ aggregatedId e2) :=
  (c1_catalog_aggregatedIds_unique
      [CatalogOp.merge ['a'] [(['t'], CapKind.tool)],
       CatalogOp.merge ['b'] [(['t'], CapKind.tool)],
       CatalogOp.prune ['a']]
      [] (by decide) (by decide)).1

/-- Counterexample for C1 as stated: the two backend names `x` and
`x::y` are distinct, yet merging tool `y::z` of backend `x` and tool `z`
of backend `x::y` leaves two catalog entries with the same aggregatedId
`x::y::z`. -/
theorem c1_counterexample :
    (['x'] : Str) ≠ ['x', ':', ':', 'y'] ∧
      ¬ (applyOps
            [CatalogOp.merge ['x'] [(['y', ':', ':', 'z'], CapKind.tool)],
             CatalogOp.merge ['x', ':', ':', 'y'] [(['z'], CapKind.tool)]]
            []).Pairwise
          (fun e1 e2 => aggregatedId e1 ≠ aggregatedId e2) := by
  decide

/-- Claim C2: if backend `B` advertises tool `t` (the catalog holds the
entry, and the catalog's aggregatedIds are pairwise distinct), then
`handleInvoke` on the composed id forwards exactly `args` to `B`'s `t`:
an `ok` result comes back unchanged, and a backend-side error comes back
with the backend name stripped, keeping upstream unaware of the routing
path. -/
theorem c2_handleInvoke_roundtrip {α β : Type} (cat : AggregateCatalog)
    (invoke : Str → Str → α → Except BackendErr β)
    (B t : Str) (k : CapKind) (args : α)
    (hmem : (⟨B, t, k⟩ : CapabilityEntry) ∈ cat)
    (hdist : cat.Pairwise
      (fun e1 e2 => aggregatedId e1 ≠ aggregatedId e2)) :
    (∀ r, invoke B t args = .ok r →
        handleInvoke cat invoke (aggregatedId ⟨B, t, k⟩) args = .ok r) ∧
      ∀ origin msg, invoke B t args = .error ⟨origin, msg⟩ →
        handleInvoke cat invoke (aggregatedId ⟨B, t, k⟩) args =
          .error (.forwarded msg) := by
  have hfind := findEntry_of_mem hmem hdist
  constructor
  · intro r hr
    unfold handleInvoke
    rw [hfind]
    simp only
    rw [hr]
  · intro origin msg he
    unfold handleInvoke
    rw [hfind]
    simp only
    rw [he]

/-- Witness for C2: a singleton catalog for backend `b` with tool `t` and
backend behavior returning the payload; the routed call returns the
payload unchanged. -/
theorem c2_handleInvoke_roundtrip_witness :
    handleInvoke [(⟨['b'], ['t'], CapKind.tool⟩ : CapabilityEntry)]
        (fun _ _ (a : Nat) => Except.ok a)
        (aggregatedId ⟨['b'], ['t'], CapKind.tool⟩) 7 =
      Except.ok 7 :=
  (c2_handleInvoke_roundtrip
      [(⟨['b'], ['t'], CapKind.tool⟩ : CapabilityEntry)]
      (fun _ _ (a : Nat) => Except.ok a)
      ['b'] ['t'] CapKind.tool 7 (by decide) (by decide)).1 7 rfl

/-- Claim C3: for every aggregatedId absent from the catalog at the
moment of the call — the just-pruned case included — `handleInvoke`
returns the structured `UnknownCapability` error; it is a total function
of the current catalog, so it neither retries nor hangs. -/
theorem c3_handleInvoke_unknownCapability {α β : Type}
    (cat : AggregateCatalog)
    (invoke : Str → Str → α → Except BackendErr β)
    (aggId : Str) (args : α)
    (h : ∀ e ∈ cat, aggregatedId e ≠ aggId) :
    handleInvoke cat invoke aggId args =
      Except.error RouterError.unknownCapability := by
  have hfind : findEntry cat aggId = none := by
    unfold findEntry
    exact List.find?_eq_none.mpr (by simpa using h)
  unfold handleInvoke
  rw [hfind]

/-- Witness for C3: invoking an id no catalog entry carries returns
`UnknownCapability`. -/
theorem c3_handleInvoke_unknownCapability_witness :
    handleInvoke [(⟨['b'], ['t'], CapKind.tool⟩ : CapabilityEntry)]
        (fun _ _ (a : Nat) => Except.ok a) ['z'] 3 =
      Except.error RouterError.unknownCapability :=
  c3_handleInvoke_unknownCapability
    [(⟨['b'], ['t'], CapKind.tool⟩ : CapabilityEntry)]
    (fun _ _ (a : Nat) => Except.ok a) ['z'] 3 (by decide)

/-- Claim C4: pruning backend `b` keeps exactly the entries not owned by
`b`, is a subsequence of the original catalog (so the relative order of
everything kept is unchanged), and every other backend's entry sequence
is exactly preserved. -/
theorem c4_prune_frame (cat : AggregateCatalog) (b : Str) :
    (∀ e, e ∈ pruneBackend b cat ↔ e ∈ cat ∧ e.ownerBackend ≠ b) ∧
      List.Sublist (pruneBackend b cat) cat ∧
      ∀ b', b' ≠ b →
        (pruneBackend b cat).filter (fun e => e.ownerBackend = b') =
          cat.filter (fun e => e.ownerBackend = b') := by
  refine ⟨fun e => mem_removeBackend, removeBackend_sublist b cat, ?_⟩
  intro b' hb'
  unfold pruneBackend removeBackend
  rw [List.filter_filter]
  refine List.filter_congr ?_
  intro e _
  by_cases he : e.ownerBackend = b'
  · simp [he, hb']
  · simp [he]

/-- Witness for C4: pruning backend `a` from a two-backend catalog leaves
backend `b`'s entry sequence untouched. -/
theorem c4_prune_frame_witness :
    (pruneBackend ['a']
        [(⟨['a'], ['t'], CapKind.tool⟩ : CapabilityEntry),
         ⟨['b'], ['u'], CapKind.resource⟩]).filter
        (fun e => e.ownerBackend = ['b']) =
      ([(⟨['a'], ['t'], CapKind.tool⟩ : CapabilityEntry),
         ⟨['b'], ['u'], CapKind.resource⟩]).filter
        (fun e => e.ownerBackend = ['b']) :=
  (c4_prune_frame
      [(⟨['a'], ['t'], CapKind.tool⟩ : CapabilityEntry),
       ⟨['b'], ['u'], CapKind.resource⟩] ['a']).2.2 ['b'] (by decide)

/-- Claim C5 (amended): the resolver call returns the ordered server list
of a response with `success: true`; an axios failure is typed —
`InvalidCredential` (`Invalid API key`) at HTTP 401, `Forbidden`
(`No permission`) at 403, `ResolverUnavailable` (`Auth error: ...`) at
any other axios transport failure; additionally, a response with
`success: false` or a non-axios exception is re-raised as an untyped
error (for `success: false`, with the response message or
`Auth failed`). -/
theorem c5_resolver_outcomes (o : HttpOutcome) :
    (∃ r, o = .response r ∧ r.success = true ∧
        authenticateAndGetServers o = .ok r.servers) ∨
      (∃ r, o = .response r ∧ r.success = false ∧
        authenticateAndGetServers o =
          .error (.raised (jsOrElse r.message ("Auth failed")))) ∨
      (∃ m, o = .axiosError (some 401) m ∧
        authenticateAndGetServers o = .error .invalidApiKey) ∨
      (∃ m, o = .axiosError (some 403) m ∧
        authenticateAndGetServers o = .error .noPermission) ∨
      (∃ s m, o = .axiosError s m ∧ s ≠ some 401 ∧ s ≠ some 403 ∧
        authenticateAndGetServers o = .error (.authError m)) ∨
      ∃ m, o = .otherError m ∧
        authenticateAndGetServers o = .error (.raised m) := by
  cases o with
  | response r =>
    by_cases hs : r.success = true
    · exact Or.inl ⟨r, rfl, hs, by simp [authenticateAndGetServers, hs]⟩
    · refine Or.inr (Or.inl ⟨r, rfl, by simpa using hs, ?_⟩)
      simp only [Bool.not_eq_true] at hs
      simp [authenticateAndGetServers, hs]
  | axiosError s m =>
    by_cases h1 : s = some 401
    · subst h1
      exact Or.inr (Or.inr (Or.inl
        ⟨m, rfl, by simp [authenticateAndGetServers]⟩))
    · by_cases h3 : s = some 403
      · subst h3
        exact Or.inr (Or.inr (Or.inr (Or.inl
          ⟨m, rfl, by simp [authenticateAndGetServers]⟩)))
      · exact Or.inr (Or.inr (Or.inr (Or.inr (Or.inl
          ⟨s, m, rfl, h1, h3, by simp [authenticateAndGetServers, h1, h3]⟩))))
  | otherError m =>
    exact Or.inr (Or.inr (Or.inr (Or.inr (Or.inr
      ⟨m, rfl, by simp [authenticateAndGetServers]⟩))))

/-- Counterexample for C5 as stated: an HTTP-successful response whose
body carries `success: false` makes the resolver call fail with a
re-raised plain `Error` (`Auth failed`), which is none of the three typed
failures `InvalidCredential`, `Forbidden`, `ResolverUnavailable` — and it
does not return a server list either. -/
theorem c5_counterexample :
    authenticateAndGetServers (.response ⟨false, [], none⟩) =
        .error (.raised ("Auth failed")) ∧
      AuthFailure.raised ("Auth failed") ≠ .invalidApiKey ∧
      AuthFailure.raised ("Auth failed") ≠ .noPermission ∧
      ∀ m, AuthFailure.raised ("Auth failed") ≠ .authError m := by
  refine ⟨rfl, by simp, by simp, by simp⟩

/-- Claim C6: when credential resolution fails for a session started with
an api key, no Backend Connection is opened, the resolver error is
surfaced to the session initiator unchanged, and the process exits with
code 1. -/
theorem c6_resolver_failure_fatal (apiKey : Option String)
    (env : ConfigEnv) (e : AuthFailure)
    (hk : jsTruthy apiKey = true)
    (he : authenticateAndGetServers env.http = .error e) :
    (mainStdio apiKey env).openedBackends = [] ∧
      (mainStdio apiKey env).surfacedError = some e ∧
      (mainStdio apiKey env).exitCode = some 1 := by
  simp [mainStdio, createServer, loadConfig, hk, he]

/-- Witness for C6: an api key rejected with HTTP 401 opens no backend,
surfaces `InvalidCredential` and exits 1. -/
theorem c6_resolver_failure_fatal_witness :
    (mainStdio (some ("k"))
          ⟨HttpOutcome.axiosError (some 401) ("down"),
           Except.ok ⟨[]⟩⟩).openedBackends = [] ∧
      (mainStdio (some ("k"))
          ⟨HttpOutcome.axiosError (some 401) ("down"),
           Except.ok ⟨[]⟩⟩).surfacedError =
        some AuthFailure.invalidApiKey ∧
      (mainStdio (some ("k"))
          ⟨HttpOutcome.axiosError (some 401) ("down"),
           Except.ok ⟨[]⟩⟩).exitCode = some 1 :=
  c6_resolver_failure_fatal (some ("k"))
    ⟨HttpOutcome.axiosError (some 401) ("down"), Except.ok ⟨[]⟩⟩
    AuthFailure.invalidApiKey (by decide) rfl

/-- Claim C7: on a SIGINT of a started server (stdio entry, or SSE entry
after initialization) cleanup of the Backend Connections runs strictly
before the process exits and the exit code is 0; across all exit paths,
exit code 1 occurs exactly on the unrecoverable startup-failure paths. -/
theorem c7_sigint_clean_shutdown (p : ExitPath) :
    (p = .stdioSigint ∨ p = .sseSigintAfterInit →
        cleanupThenExitZero (pathActions p) = true ∧
          exitCodes (pathActions p) = [0]) ∧
      (1 ∈ exitCodes (pathActions p) ↔
        p = .stdioStartupFailure ∨ p = .sseStartupFailure) := by
  cases p <;> exact ⟨by decide, by decide⟩

/-- Witness for C7: the stdio SIGINT handler runs cleanup before its
exit, and exits with code 0. -/
theorem c7_sigint_clean_shutdown_witness :
    cleanupThenExitZero (pathActions .stdioSigint) = true ∧
      exitCodes (pathActions .stdioSigint) = [0] :=
  (c7_sigint_clean_shutdown .stdioSigint).1 (Or.inl rfl)

/-- Claim C8: in the SSE bootstrap the upstream transport is one
module-global variable reassigned on every GET `/sse`: after any event
sequence a POST `/message` is delivered to the most recently connected
client's transport (detaching any earlier client), and a POST before any
`/sse` connection operates on the undefined transport. -/
theorem c8_sse_global_transport (evs : List SseEvent) :
    postTarget (runSse evs) = lastConnect evs ∧
      (∀ c, postTarget (runSse (evs ++ [SseEvent.sseConnect c])) = some c) ∧
      postTarget (runSse []) = none := by
  refine ⟨runSse_foldl evs ⟨none⟩, ?_, rfl⟩
  intro c
  unfold runSse postTarget
  rw [List.foldl_append]
  rfl

/-- Claim C9: with a (truthy, non-empty) api key `loadConfig` never reads
the config file — its result is identical for every file outcome — and a
resolver failure propagates to the caller instead of falling back to the
file. -/
theorem c9_apiKey_skips_file (apiKey : Option String) (env : ConfigEnv)
    (hk : jsTruthy apiKey = true) :
    (loadConfig apiKey env).2 = false ∧
      (∀ file', loadConfig apiKey ⟨env.http, file'⟩ = loadConfig apiKey env) ∧
      ∀ e, authenticateAndGetServers env.http = .error e →
        (loadConfig apiKey env).1 = .error e := by
  refine ⟨?_, ?_, ?_⟩
  · simp only [loadConfig, hk, if_true]
    cases authenticateAndGetServers env.http <;> rfl
  · intro file'
    simp only [loadConfig, hk, if_true]
  · intro e he
    simp only [loadConfig, hk, if_true, he]

/-- Witness for C9: with api key `k`, a failing resolver propagates
`InvalidCredential` and the file-read flag stays false, for an
environment whose config file would have parsed fine. -/
theorem c9_apiKey_skips_file_witness :
    (loadConfig (some ("k"))
        ⟨HttpOutcome.axiosError (some 401) ("down"),
         Except.ok ⟨[]⟩⟩).2 = false ∧
      (loadConfig (some ("k"))
          ⟨HttpOutcome.axiosError (some 401) ("down"),
           Except.ok ⟨[]⟩⟩).1 =
        .error AuthFailure.invalidApiKey :=
  ⟨(c9_apiKey_skips_file (some ("k"))
      ⟨HttpOutcome.axiosError (some 401) ("down"), Except.ok ⟨[]⟩⟩
      (by decide)).1,
   (c9_apiKey_skips_file (some ("k"))
      ⟨HttpOutcome.axiosError (some 401) ("down"), Except.ok ⟨[]⟩⟩
      (by decide)).2.2 AuthFailure.invalidApiKey rfl⟩

/-- Claim C10: without a (truthy) api key `loadConfig` never fails: it
always returns some config, and on every failure to read or parse the
config file it returns the empty server list. -/
theorem c10_no_key_never_throws (apiKey : Option String) (env : ConfigEnv)
    (hk : jsTruthy apiKey = false) :
    (∃ cfg, (loadConfig apiKey env).1 = Except.ok cfg) ∧
      ∀ msg, env.file = Except.error msg →
        (loadConfig apiKey env).1 = Except.ok ⟨[]⟩ := by
  constructor
  · simp only [loadConfig, hk, if_false, Bool.false_eq_true]
    cases henv : env.file with
    | ok cfg => exact ⟨cfg, by simp [henv]⟩
    | error m => exact ⟨⟨[]⟩, by simp [henv]⟩
  · intro msg hmsg
    simp [loadConfig, hk, hmsg]

/-- Witness for C10: with no api key and an unreadable config file, the
loaded config is the empty server list. -/
theorem c10_no_key_never_throws_witness :
    (loadConfig none
        ⟨HttpOutcome.otherError ("unused"),
         Except.error ("ENOENT")⟩).1 = Except.ok ⟨[]⟩ :=
  (c10_no_key_never_throws none
      ⟨HttpOutcome.otherError ("unused"), Except.error ("ENOENT")⟩
      (by decide)).2 ("ENOENT") rfl

end PocketMCP
